import Mathlib

/-!
Verification of the path-formulation / dual-subgradient traffic-engineering
repository (`lib/algorithms/od_dual_formulation.py`, `benchmarks/pop.py`,
`benchmarks/pop_num_subproblems_sweep.py`).

The Python code is shallowly embedded: floats become exact rationals (`ℚ`),
Python `defaultdict`s become total functions carrying their default value,
exceptions become `Except`/explicit outcome types, and the `while True`
round loop of `ODDualFormulation.solve` becomes a fuel-indexed recursion.
-/

abbrev Edge := Nat × Nat

abbrev Site := Nat × Nat

abbrev NodePath := List Nat

/-- Constant `NORMALIZATION = 1000` from `ODDualFormulation.solve`. -/
def NORMALIZATION : ℚ := 1000

/-- Constant `ETA = 1` from `ODDualFormulation.solve`. -/
def ETA : ℚ := 1

/-- Constant `MAX_ROUNDS = 20000` from `ODDualFormulation.solve`. -/
def MAX_ROUNDS : Nat := 20000

/-- Step size of the dual solver, line 316 of `od_dual_formulation.py`:
`EPSILON = min(0.5/(min(round, 10)), 0.009)`. -/
def EPSILON (round : Nat) : ℚ :=
  min ((1 / 2) / ((min round 10 : Nat) : ℚ)) (9 / 1000)

/-- Stub convergence check, lines 305-306 of `od_dual_formulation.py`:
`def has_matrix_converged(old_matrix, new_matrix): return True`. -/
def has_matrix_converged {α : Type} (old_matrix new_matrix : α) : Bool :=
  true

/-- The possible `Objective` enum members dispatched on by
`ODDualFormulation`; `OTHER` stands for any value outside the four
recognized members (Python dispatch is by equality, so any other value
falls into the final `else`). -/
inductive Objective
  | TOTAL_FLOW
  | MAX_CONCURRENT_FLOW
  | MIN_MAX_LINK_UTIL
  | COMPUTE_DEMAND_SCALE_FACTOR
  | OTHER (name : String)
deriving DecidableEq, Repr

/-- Configuration state stored by `ODDualFormulation.__init__`. -/
structure ODConfig where
  objective : Objective
  num_paths : Nat
  edge_disjoint : Bool
  dist_metric : String
  DEBUG : Bool
  VERBOSE : Bool
deriving DecidableEq, Repr

/-- Embedding of `ODDualFormulation.__init__` (lines 91-111): raises on a
distance metric other than "inv-cap" or "min-hop", otherwise stores the
configuration. -/
def ODDualFormulation_init (objective : Objective) (num_paths : Nat)
    (edge_disjoint : Bool) (dist_metric : String)
    (DEBUG VERBOSE : Bool) : Except String ODConfig :=
  if dist_metric ≠ "inv-cap" ∧ dist_metric ≠ "min-hop" then
    .error ("invalid distance metric: " ++ dist_metric ++
      "; only \"inv-cap\" and \"min-hop\" are valid choices")
  else
    .ok ⟨objective, num_paths, edge_disjoint, dist_metric, DEBUG, VERBOSE⟩

/-- Classmethod `new_total_flow` (lines 22-34). -/
def new_total_flow (num_paths : Nat) (edge_disjoint : Bool)
    (dist_metric : String) : Except String ODConfig :=
  ODDualFormulation_init .TOTAL_FLOW num_paths edge_disjoint dist_metric
    false false

/-- Classmethod `new_max_concurrent_flow` (lines 36-48). -/
def new_max_concurrent_flow (num_paths : Nat) (edge_disjoint : Bool)
    (dist_metric : String) : Except String ODConfig :=
  ODDualFormulation_init .MAX_CONCURRENT_FLOW num_paths edge_disjoint
    dist_metric false false

/-- Classmethod `new_min_max_link_util` (lines 50-62). -/
def new_min_max_link_util (num_paths : Nat) (edge_disjoint : Bool)
    (dist_metric : String) : Except String ODConfig :=
  ODDualFormulation_init .MIN_MAX_LINK_UTIL num_paths edge_disjoint
    dist_metric false false

/-- Classmethod `compute_demand_scale_factor` (lines 64-76). -/
def compute_demand_scale_factor (num_paths : Nat) (edge_disjoint : Bool)
    (dist_metric : String) : Except String ODConfig :=
  ODDualFormulation_init .COMPUTE_DEMAND_SCALE_FACTOR num_paths
    edge_disjoint dist_metric false false

/-- Result of a call to `get_pf_for_obj`: either a constructed
formulation object, a raised exception, or the fall-through of the final
`else` branch, which prints a message and implicitly returns `None`. -/
inductive PfResult
  | constructed (c : ODConfig)
  | raised (msg : String)
  | printed_none (msg : String)
deriving DecidableEq, Repr

/-- Tests whether a `PfResult` is a raised exception. -/
def PfResult.isRaised : PfResult → Bool
  | .raised _ => true
  | _ => false

/-- Lifts the outcome of a constructor call into a `PfResult`. -/
def PfResult.ofExcept : Except String ODConfig → PfResult
  | .ok c => .constructed c
  | .error m => .raised m

/-- Embedding of the classmethod `get_pf_for_obj` (lines 78-89): dispatch
over the four recognized objectives; any other value reaches the `else`
branch, which prints `objective "..." not found` and returns `None`. -/
def get_pf_for_obj (objective : Objective) (num_paths : Nat)
    (edge_disjoint : Bool) (dist_metric : String) : PfResult :=
  match objective with
  | .TOTAL_FLOW =>
      .ofExcept (new_total_flow num_paths edge_disjoint dist_metric)
  | .MAX_CONCURRENT_FLOW =>
      .ofExcept (new_max_concurrent_flow num_paths edge_disjoint dist_metric)
  | .MIN_MAX_LINK_UTIL =>
      .ofExcept (new_min_max_link_util num_paths edge_disjoint dist_metric)
  | .COMPUTE_DEMAND_SCALE_FACTOR =>
      .ofExcept (compute_demand_scale_factor num_paths edge_disjoint
        dist_metric)
  | .OTHER name =>
      .printed_none ("objective \"" ++ name ++ "\" not found")

/-- Outcome of the `open`/`pickle.load` attempt inside
`read_paths_from_disk_or_compute`: the file may be missing (raising
`FileNotFoundError`), present but unreadable (a `pickle` load error), or
successfully loaded. -/
inductive ReadOutcome
  | fileNotFound
  | loadFailure (msg : String)
  | loaded (d : List (Site × List NodePath))
deriving Repr

/-- Result of `read_paths_from_disk_or_compute`: the returned paths
dictionary, plus whether the path set was written back to the cache. -/
structure ReadResult where
  paths : List (Site × List NodePath)
  wroteCache : Bool
deriving Repr

/-- Embedding of the static method `compute_paths` (lines 206-217): for
every ordered pair of distinct nodes, find paths and strip cycles.
`find_paths` and `remove_cycles` live in `lib/path_utils.py` (outside the
inspected sources) and are taken as function parameters. -/
def compute_paths (nodes : List Nat)
    (find_paths : Nat → Nat → List NodePath)
    (remove_cycles : NodePath → NodePath) : List (Site × List NodePath) :=
  (nodes.map (fun s_k =>
    nodes.filterMap (fun t_k =>
      if s_k = t_k then none
      else some ((s_k, t_k), (find_paths s_k t_k).map remove_cycles)))).flatten

/-- Embedding of the static method `read_paths_from_disk_or_compute`
(lines 219-242): `try` to open and unpickle the cache file; on success,
re-strip cycles and return with no write-back; the `except` clause
catches exactly `FileNotFoundError`, recomputing and writing back; any
other load error propagates to the caller. -/
def read_paths_from_disk_or_compute (outcome : ReadOutcome)
    (nodes : List Nat) (find_paths : Nat → Nat → List NodePath)
    (remove_cycles : NodePath → NodePath) : Except String ReadResult :=
  match outcome with
  | .loaded d =>
      .ok ⟨d.map (fun kp => (kp.1, kp.2.map remove_cycles)), false⟩
  | .fileNotFound =>
      .ok ⟨compute_paths nodes find_paths remove_cycles, true⟩
  | .loadFailure msg => .error msg

/-- Decision variables of the Gurobi model built by `_construct_path_lp`:
one flow variable `f[p]` per path, the scalar `z` (`max_link_util_var`),
and the scalar `a` (`self.alpha`). -/
inductive LpVar
  | f (p : Nat)
  | z
  | a
deriving DecidableEq, Repr

/-- Left-hand side of every constraint added by `_construct_path_lp`: a
scalar coefficient applied to a `quicksum` of path variables (dividing a
`quicksum` by a constant is multiplying by its inverse). -/
structure PathSum where
  coeff : ℚ
  paths : List Nat
deriving DecidableEq, Repr

/-- Comparison operator of a linear constraint. -/
inductive LpRel
  | le
  | ge
  | eq
deriving DecidableEq, Repr

/-- Right-hand side of a constraint: a variable or a constant. -/
inductive LpBound
  | var (v : LpVar)
  | const (c : ℚ)
deriving DecidableEq, Repr

/-- One linear constraint of the model. -/
structure LpConstr where
  lhs : PathSum
  rel : LpRel
  rhs : LpBound
deriving DecidableEq, Repr

/-- Objective of the model: the expression together with its sense
(`maximize = true` for `GRB.MAXIMIZE`). -/
structure LpObjective where
  maximize : Bool
  target : LpBound
deriving DecidableEq, Repr

/-- The model constructed by `_construct_path_lp`: variable bounds
`(var, lb, ub)` (with `ub = none` for unbounded above), the constraint
list, and the objective. -/
structure LpModel where
  varBounds : List (LpVar × ℚ × Option ℚ)
  constrs : List LpConstr
  objective : LpObjective
deriving DecidableEq, Repr

/-- Value of a `quicksum` of path variables under an assignment. -/
def sumFlow (ρ : LpVar → ℚ) (paths : List Nat) : ℚ :=
  (paths.map (fun p => ρ (.f p))).sum

/-- Value of a constraint's left-hand side under an assignment. -/
def PathSum.eval (ρ : LpVar → ℚ) (s : PathSum) : ℚ :=
  s.coeff * sumFlow ρ s.paths

/-- Value of a constraint's right-hand side under an assignment. -/
def LpBound.eval (ρ : LpVar → ℚ) : LpBound → ℚ
  | .var v => ρ v
  | .const c => c

/-- Whether an assignment satisfies one constraint. -/
def LpConstr.sat (ρ : LpVar → ℚ) (c : LpConstr) : Bool :=
  match c.rel with
  | .le => decide (c.lhs.eval ρ ≤ c.rhs.eval ρ)
  | .ge => decide (c.lhs.eval ρ ≥ c.rhs.eval ρ)
  | .eq => decide (c.lhs.eval ρ = c.rhs.eval ρ)

/-- Whether an assignment respects one variable's bounds. -/
def boundSat (ρ : LpVar → ℚ) (b : LpVar × ℚ × Option ℚ) : Bool :=
  decide (b.2.1 ≤ ρ b.1) &&
    (match b.2.2 with
     | none => true
     | some ub => decide (ρ b.1 ≤ ub))

/-- Whether an assignment is feasible for the model: it satisfies every
constraint and every variable bound. -/
def LpModel.feasible (m : LpModel) (ρ : LpVar → ℚ) : Bool :=
  m.constrs.all (LpConstr.sat ρ) && m.varBounds.all (boundSat ρ)

/-- Dictionary lookup `edge_to_paths[(u, v)]` (present iff the edge is a
key of `edge_to_paths`). -/
def lookupEdgePaths (edge_to_paths : List (Edge × List Nat)) (e : Edge) :
    Option (List Nat) :=
  (edge_to_paths.find? (fun q => q.1 = e)).map (fun q => q.2)

/-- Dictionary lookup `commod_id_to_path_inds[k]`, where the dictionary
holds `path_ids` for each `(k, d_k, path_ids)` in `self.commodities`. -/
def lookupCommodPaths (commodities : List (Nat × ℚ × List Nat)) (k : Nat) :
    Option (List Nat) :=
  (commodities.find? (fun c => c.1 = k)).map (fun c => c.2.2)

/-- Path variables of `fixed_commods` in order:
`[path_vars[p] for k in fixed_commods for p in commod_id_to_path_inds[k]]`;
`none` models the `KeyError` raised by a commodity id absent from
`commod_id_to_path_inds`. -/
def pathsForCommods (commodities : List (Nat × ℚ × List Nat)) :
    List Nat → Option (List Nat)
  | [] => some []
  | k :: rest =>
    match lookupCommodPaths commodities k with
    | none => none
    | some pids =>
      (pathsForCommods commodities rest).map (fun r => pids ++ r)

/-- The flow-cap constraint added for one `(fixed_commods, flow_value)`
entry of `sat_flows` (line 191):
`quicksum(constr_vars) >= 0.99 * flow_value`. -/
def satFlowConstr (pids : List Nat) (flow_value : ℚ) : LpConstr :=
  ⟨⟨1, pids⟩, .ge, .const ((99 / 100) * flow_value)⟩

/-- The flow-cap constraints of lines 186-191, one per `sat_flows` entry;
`none` models a `KeyError` from `commod_id_to_path_inds`. -/
def buildSatFlowConstrs (commodities : List (Nat × ℚ × List Nat)) :
    List (List Nat × ℚ) → Option (List LpConstr)
  | [] => some []
  | (fixed_commods, flow_value) :: rest =>
    match pathsForCommods commodities fixed_commods with
    | none => none
    | some pids =>
      (buildSatFlowConstrs commodities rest).map
        (fun cs => satFlowConstr pids flow_value :: cs)

/-- Edge-utilization constraints of the `MIN_MAX_LINK_UTIL` /
`COMPUTE_DEMAND_SCALE_FACTOR` branch (lines 137-145): for each edge of
the graph that is a key of `edge_to_paths`, either a hard-exclusion
constraint (zero capacity) or a utilization constraint. -/
def edgeUtilConstrs (edges : List (Edge × ℚ))
    (edge_to_paths : List (Edge × List Nat)) : List LpConstr :=
  edges.filterMap (fun (ec : Edge × ℚ) =>
    match lookupEdgePaths edge_to_paths ec.1 with
    | none => none
    | some paths =>
      if ec.2 = 0 then some ⟨⟨1, paths⟩, .le, .const 0⟩
      else some ⟨⟨1 / ec.2, paths⟩, .le, .var .z⟩)

/-- Edge-capacity constraints of the `TOTAL_FLOW` /
`MAX_CONCURRENT_FLOW` branch (lines 171-176). -/
def edgeCapConstrs (edges : List (Edge × ℚ))
    (edge_to_paths : List (Edge × List Nat)) : List LpConstr :=
  edges.filterMap (fun (ec : Edge × ℚ) =>
    match lookupEdgePaths edge_to_paths ec.1 with
    | none => none
    | some paths => some ⟨⟨1, paths⟩, .le, .const ec.2⟩)

/-- Demand equality constraints of lines 147-154:
`quicksum(path_vars[p] for p in path_ids) == d_k`. -/
def demandEqConstrs (commodities : List (Nat × ℚ × List Nat)) :
    List LpConstr :=
  commodities.map (fun c => ⟨⟨1, c.2.2⟩, .eq, .const c.2.1⟩)

/-- Demand inequality constraints of lines 177-184. -/
def demandLeConstrs (commodities : List (Nat × ℚ × List Nat)) :
    List LpConstr :=
  commodities.map (fun c => ⟨⟨1, c.2.2⟩, .le, .const c.2.1⟩)

/-- Max-concurrent-flow constraints of lines 164-167:
`quicksum(path_vars[p] for p in path_ids) / d_k >= self.alpha`. -/
def alphaConstrs (commodities : List (Nat × ℚ × List Nat)) :
    List LpConstr :=
  commodities.map (fun c => ⟨⟨1 / c.2.1, c.2.2⟩, .ge, .var .a⟩)

/-- Embedding of `ODDualFormulation._construct_path_lp` (lines 114-195).
Arguments mirror the Python locals: `edges` is `G.edges.data("capacity")`,
`edge_to_paths` the edge-to-path-id index, `num_total_paths` the path
variable count, `commodities` is `self.commodities`, and `sat_flows` the
optional flow caps.  Returns `none` when the Python code would raise: a
`KeyError` in the flow-cap loop, or the `NameError` on `obj` reached when
the objective is none of the four recognized members. -/
def construct_path_lp (objective : Objective) (edges : List (Edge × ℚ))
    (edge_to_paths : List (Edge × List Nat)) (num_total_paths : Nat)
    (commodities : List (Nat × ℚ × List Nat))
    (sat_flows : List (List Nat × ℚ)) : Option LpModel :=
  let pathVarBounds : List (LpVar × ℚ × Option ℚ) :=
    (List.range num_total_paths).map (fun p => (.f p, 0, none))
  match buildSatFlowConstrs commodities sat_flows with
  | none => none
  | some satConstrs =>
    match objective with
    | .MIN_MAX_LINK_UTIL =>
      some ⟨pathVarBounds ++ [(.z, 0, some 1)],
        edgeUtilConstrs edges edge_to_paths ++ demandEqConstrs commodities
          ++ satConstrs,
        ⟨false, .var .z⟩⟩
    | .COMPUTE_DEMAND_SCALE_FACTOR =>
      some ⟨pathVarBounds ++ [(.z, 0, none)],
        edgeUtilConstrs edges edge_to_paths ++ demandEqConstrs commodities
          ++ satConstrs,
        ⟨false, .var .z⟩⟩
    | .TOTAL_FLOW =>
      some ⟨pathVarBounds,
        edgeCapConstrs edges edge_to_paths ++ demandLeConstrs commodities
          ++ satConstrs,
        ⟨true, .const 0⟩⟩
    | .MAX_CONCURRENT_FLOW =>
      some ⟨pathVarBounds ++ [(.a, 0, some 1)],
        alphaConstrs commodities ++ edgeCapConstrs edges edge_to_paths
          ++ demandLeConstrs commodities ++ satConstrs,
        ⟨true, .var .a⟩⟩
    | .OTHER _ => none

/-- One commodity `(k, (s_k, t_k, d_k))` of `self.commodity_list`. -/
structure Commodity where
  k : Nat
  src : Nat
  dst : Nat
  demand : ℚ
deriving DecidableEq, Repr

/-- Endpoint pair of a commodity. -/
def Commodity.site (c : Commodity) : Site := (c.src, c.dst)

/-- The dictionary `edge_to_capacity` of lines 267-271 of
`ODDualFormulation.solve`: a `defaultdict(int)` assigned
`c_e / NORMALIZATION` for every `(u, v, c_e)` of
`G.edges.data("capacity")` in order (later assignments win). -/
def edge_to_capacity (edgeCaps : List (Edge × ℚ)) : Edge → ℚ :=
  edgeCaps.foldl
    (fun f (ec : Edge × ℚ) =>
      fun e => if e = ec.1 then ec.2 / NORMALIZATION else f e)
    (fun _ => 0)

/-- Accumulator of the path-indexing loop at lines 262-299 of
`ODDualFormulation.solve`.  Each Python `defaultdict` is a total
function returning its default on keys never assigned; `allPathsDicty`
is a plain `dict`, hence `Option`-valued; `pathIds` is the running path
id counter. -/
structure InitAccum where
  pathIds : Nat
  allPathsDicty : Nat → Option NodePath
  xrOld : Nat → ℚ
  sitesToPathIds : Site → List Nat
  pathIdsToEdge : Nat → List Edge
  edgeToPathIds : Edge → List Nat
  pathIdToMinCapacity : Nat → ℚ
  sitesToDemand : Site → ℚ

/-- The accumulator before the commodity loop runs: empty dictionaries
with their declared defaults (`defaultdict(int)` for `xr_old`,
`edge_to_path_ids`, `sites_to_demand`, ...;
`defaultdict(lambda: 10000000)` for `path_id_to_min_capacity`). -/
def initAccum0 : InitAccum where
  pathIds := 0
  allPathsDicty := fun _ => none
  xrOld := fun _ => 0
  sitesToPathIds := fun _ => []
  pathIdsToEdge := fun _ => []
  edgeToPathIds := fun _ => []
  pathIdToMinCapacity := fun _ => 10000000
  sitesToDemand := fun _ => 0

/-- Body of the inner edge loop (lines 291-294): update the running
bottleneck capacity of path id `pid` and extend the edge↔path indices.
`cap` is the `edge_to_capacity` dictionary. -/
def edgeStep (cap : Edge → ℚ) (pid : Nat) (st : InitAccum) (e : Edge) :
    InitAccum :=
  { st with
    pathIdToMinCapacity := fun p =>
      if p = pid then min (st.pathIdToMinCapacity pid) (cap e)
      else st.pathIdToMinCapacity p
    edgeToPathIds := fun e2 =>
      if e2 = e then st.edgeToPathIds e ++ [pid] else st.edgeToPathIds e2
    pathIdsToEdge := fun p =>
      if p = pid then st.pathIdsToEdge pid ++ [e] else st.pathIdsToEdge p }

/-- Body of the path loop (lines 287-295): record the path under the
fresh id `path_ids`, give it the commodity's raw demand `d_k` as the
initial flow, append the id to the commodity's site, walk the path's
edges, and advance the counter.  `ptel` is `path_to_edge_list` from
`lib/graph_utils.py` (outside the inspected sources), taken as a
function parameter. -/
def pathStep (cap : Edge → ℚ) (ptel : NodePath → List Edge) (site : Site)
    (d : ℚ) (st : InitAccum) (path : NodePath) : InitAccum :=
  let pid := st.pathIds
  let st1 : InitAccum :=
    { st with
      allPathsDicty := fun p =>
        if p = pid then some path else st.allPathsDicty p
      xrOld := fun p => if p = pid then d else st.xrOld p
      sitesToPathIds := fun s2 =>
        if s2 = site then st.sitesToPathIds site ++ [pid]
        else st.sitesToPathIds s2 }
  let st2 := (ptel path).foldl (edgeStep cap pid) st1
  { st2 with pathIds := pid + 1 }

/-- Body of the commodity loop (lines 284-295): store the normalized
demand for the commodity's site, then process each of its paths. -/
def commodityStep (cap : Edge → ℚ) (ptel : NodePath → List Edge)
    (allPaths : Site → List NodePath) (st : InitAccum) (c : Commodity) :
    InitAccum :=
  let st0 : InitAccum :=
    { st with
      sitesToDemand := fun s2 =>
        if s2 = c.site then c.demand / NORMALIZATION
        else st.sitesToDemand s2 }
  (allPaths c.site).foldl (pathStep cap ptel c.site c.demand) st0

/-- The full indexing pass of lines 262-299: fold the commodity loop
over `self.commodity_list`. -/
def solveInit (cap : Edge → ℚ) (ptel : NodePath → List Edge)
    (allPaths : Site → List NodePath) (commodityList : List Commodity) :
    InitAccum :=
  commodityList.foldl (commodityStep cap ptel allPaths) initAccum0

/-- Mutable state carried across rounds of the multiplier-update loop:
the three multiplier dictionaries, the flow allocation `xr`, and the
running average `xr_bar` (a plain key-set-tracking dictionary, hence
`Option`-valued). -/
structure DualState where
  mu : Edge → ℚ
  nu : Site → ℚ
  beta : Nat → ℚ
  xr : Nat → ℚ
  xrBar : Nat → Option ℚ

/-- The dictionaries entering round 1:
`mu_old = defaultdict(lambda: 100)`, `nu_old = defaultdict(lambda: 10)`,
`beta_old = defaultdict(lambda: 10)`, `xr_old` from the indexing pass,
`xr_bar_old` empty. -/
def initialDualState (xr0 : Nat → ℚ) : DualState where
  mu := fun _ => 100
  nu := fun _ => 10
  beta := fun _ => 10
  xr := xr0
  xrBar := fun _ => none

/-- One round of the `while True` loop of `ODDualFormulation.solve`
(lines 316-355): the edge-multiplier update, the site-multiplier update,
the path-multiplier decay, and the flow recomputation (which reads the
freshly updated `mu_new`/`nu_new`).  Keys never assigned hold the
`defaultdict(int)` default `0` of the `*_new` dictionaries. -/
def roundStep (cap : Edge → ℚ) (d : InitAccum) (round : Nat)
    (st : DualState) : DualState :=
  let eps := EPSILON round
  let muNew : Edge → ℚ := fun e =>
    if d.edgeToPathIds e = [] then 0
    else
      max (st.mu e +
        eps * (((d.edgeToPathIds e).map st.xr).sum - ETA * cap e)) 0
  let nuNew : Site → ℚ := fun s =>
    if d.sitesToPathIds s = [] then 0
    else
      max (st.nu s +
        eps * (d.sitesToDemand s - ((d.sitesToPathIds s).map st.xr).sum)) 0
  let betaNew : Nat → ℚ := fun p =>
    if (d.allPathsDicty p).isSome then max (st.beta p - eps * st.xr p) 0
    else 0
  let denomOf : Nat → NodePath → ℚ := fun p path =>
    ((d.pathIdsToEdge p).map muNew).sum -
      nuNew (path.headD 0, path.getLastD 0)
  let xrNew : Nat → ℚ := fun p =>
    match d.allPathsDicty p with
    | none => 0
    | some path =>
      let denominator := denomOf p path
      let max_allocation := d.pathIdToMinCapacity p
      if denominator ≤ 0 then max_allocation
      else min (1 / denominator) max_allocation
  let xrBarNew : Nat → Option ℚ := fun p =>
    match d.allPathsDicty p with
    | none => st.xrBar p
    | some path =>
      if denomOf p path ≤ 0 then st.xrBar p
      else
        some (match st.xrBar p with
          | none => (1 / (round : ℚ)) * xrNew p
          | some v =>
            (1 - 1 / (round : ℚ)) * v + (1 / (round : ℚ)) * xrNew p)
  ⟨muNew, nuNew, betaNew, xrNew, xrBarNew⟩

/-- The `while True` loop of lines 315-372, indexed by fuel: run the
round body, then `break` when `round == MAX_ROUNDS` (returning the final
state and the final round counter) and otherwise increment `round` and
continue.  `none` means the fuel ran out with the loop still running. -/
def solveLoop (cap : Edge → ℚ) (d : InitAccum) (maxRounds : Nat) :
    Nat → Nat → DualState → Option (DualState × Nat)
  | 0, _, _ => none
  | fuel + 1, round, st =>
    let st2 := roundStep cap d round st
    if round = maxRounds then some (st2, round)
    else solveLoop cap d maxRounds fuel (round + 1) st2

/-- Plain iteration of `n` round bodies starting at round counter
`round`. -/
def runRounds (cap : Edge → ℚ) (d : InitAccum) :
    Nat → Nat → DualState → DualState
  | 0, _, st => st
  | n + 1, round, st => runRounds cap d n (round + 1) (roundStep cap d round st)

/-- Static input of `ODDualFormulation.solve`: the graph's edge
capacities, the commodity list, the per-site candidate paths, and the
`path_to_edge_list` collaborator. -/
structure SolveInput where
  edgeCaps : List (Edge × ℚ)
  commodityList : List Commodity
  allPaths : Site → List NodePath
  ptel : NodePath → List Edge

/-- Embedding of `ODDualFormulation.solve` (lines 255-389): normalize
capacities, build the path index, and run the multiplier-update loop
from round 1 with fuel `MAX_ROUNDS`. -/
def solve (inp : SolveInput) : Option (DualState × Nat) :=
  let cap := edge_to_capacity inp.edgeCaps
  let d := solveInit cap inp.ptel inp.allPaths inp.commodityList
  solveLoop cap d MAX_ROUNDS MAX_ROUNDS 1 (initialDualState d.xrOld)

/-- The step size is the constant `9/1000` in every round the loop
actually runs (the round counter starts at 1). -/
theorem EPSILON_eq (round : Nat) (h : 1 ≤ round) :
    EPSILON round = 9 / 1000 := by
  unfold EPSILON
  have h1 : (1 : ℕ) ≤ min round 10 := le_min h (by norm_num)
  have hq1 : (1 : ℚ) ≤ ((min round 10 : ℕ) : ℚ) := by exact_mod_cast h1
  have hq2 : ((min round 10 : ℕ) : ℚ) ≤ 10 := by
    exact_mod_cast min_le_right round 10
  have hpos : (0 : ℚ) < ((min round 10 : ℕ) : ℚ) :=
    lt_of_lt_of_le one_pos hq1
  have hle : (9 / 1000 : ℚ) ≤ (1 / 2) / ((min round 10 : ℕ) : ℚ) := by
    rw [le_div_iff₀ hpos]
    nlinarith
  exact min_eq_right hle

/-- Claim C4, counterexample: the step size does not shrink with the
round index — it is already `0.009` in round 1 and is the same `0.009`
in round 20000 (indeed `0.5/min(round,10) ≥ 0.05 > 0.009` always, so the
second argument of `min` wins in every round). -/
theorem C4_epsilon_not_shrinking :
    EPSILON 1 = EPSILON 20000 ∧ EPSILON 1 = 9 / 1000 := by
  have h1 : EPSILON 1 = 9 / 1000 := EPSILON_eq 1 (by norm_num)
  have h2 : EPSILON 20000 = 9 / 1000 := EPSILON_eq 20000 (by norm_num)
  exact ⟨h1.trans h2.symm, h1⟩

/-- Claim C4 (amended): the dual solver's step size is computed as
`eps = min(0.5/min(round,10), 0.009)`, which evaluates to the constant
`0.009` for every round the loop runs; it does not shrink with the round
index. -/
theorem C4_epsilon_formula (round : Nat) (h : 1 ≤ round) :
    EPSILON round =
      min ((1 / 2) / ((min round 10 : Nat) : ℚ)) (9 / 1000) ∧
    EPSILON round = 9 / 1000 :=
  ⟨rfl, EPSILON_eq round h⟩

/-- Witness for `C4_epsilon_formula` at round 7. -/
theorem C4_epsilon_formula_witness :
    (1 ≤ 7) ∧ EPSILON 7 = 9 / 1000 :=
  ⟨by decide, (C4_epsilon_formula 7 (by decide)).2⟩

/-- Running the loop with exactly enough fuel: starting at round counter
`round` with fuel `n + 1`, the loop exits at round `round + n` having
executed `n + 1` round bodies. -/
theorem solveLoop_run (cap : Edge → ℚ) (d : InitAccum) :
    ∀ (n round : Nat) (st : DualState),
      solveLoop cap d (round + n) (n + 1) round st =
        some (runRounds cap d (n + 1) round st, round + n) := by
  intro n
  induction n with
  | zero =>
    intro round st
    simp [solveLoop, runRounds]
  | succ k ih =>
    intro round st
    have hne : round ≠ round + (k + 1) := by omega
    simp only [solveLoop, runRounds]
    rw [if_neg hne]
    have heq : round + (k + 1) = (round + 1) + k := by omega
    rw [heq]
    exact ih (round + 1) (roundStep cap d round st)

/-- With insufficient fuel the loop is still running: it has not exited
(and in particular has not exited early). -/
theorem solveLoop_not_done (cap : Edge → ℚ) (d : InitAccum)
    (maxRounds : Nat) :
    ∀ (fuel round : Nat) (st : DualState), round + fuel ≤ maxRounds →
      solveLoop cap d maxRounds fuel round st = none := by
  intro fuel
  induction fuel with
  | zero => intro round st _; rfl
  | succ k ih =>
    intro round st h
    have hne : round ≠ maxRounds := by omega
    simp only [solveLoop]
    rw [if_neg hne]
    exact ih (round + 1) (roundStep cap d round st) (by omega)

/-- Claim C2: `ODDualFormulation.solve` always terminates after exactly
20000 rounds of the multiplier-update loop, with no convergence-based
early exit: (1) `has_matrix_converged` returns `true` unconditionally;
(2) from round counter 1 the loop exits with counter `MAX_ROUNDS = 20000`
after exactly 20000 executions of the round body; (3) after any fewer
than 20000 executions the loop has not exited; (4) hence `solve` returns
a final state tagged with round 20000 on every input. -/
theorem C2_fixed_rounds :
    (∀ (α : Type) (old_matrix new_matrix : α),
      has_matrix_converged old_matrix new_matrix = true)
    ∧ (∀ (cap : Edge → ℚ) (d : InitAccum) (st : DualState),
      solveLoop cap d MAX_ROUNDS MAX_ROUNDS 1 st =
        some (runRounds cap d MAX_ROUNDS 1 st, MAX_ROUNDS))
    ∧ (∀ (cap : Edge → ℚ) (d : InitAccum) (st : DualState) (fuel : Nat),
      fuel < MAX_ROUNDS → solveLoop cap d MAX_ROUNDS fuel 1 st = none)
    ∧ (∀ inp : SolveInput, ∃ st : DualState, solve inp = some (st, MAX_ROUNDS)) := by
  refine ⟨fun _ _ _ => rfl, fun cap d st => ?_, fun cap d st fuel h => ?_,
    fun inp => ?_⟩
  · have h := solveLoop_run cap d 19999 1 st
    norm_num at h
    exact h
  · exact solveLoop_not_done cap d MAX_ROUNDS fuel 1 st (by
      unfold MAX_ROUNDS at *; omega)
  · have h := solveLoop_run (edge_to_capacity inp.edgeCaps)
      (solveInit (edge_to_capacity inp.edgeCaps) inp.ptel inp.allPaths
        inp.commodityList) 19999 1
      (initialDualState (solveInit (edge_to_capacity inp.edgeCaps)
        inp.ptel inp.allPaths inp.commodityList).xrOld)
    norm_num at h
    exact ⟨_, h⟩

/-- Claim C6, counterexample: `get_pf_for_obj` on an objective outside
the four recognized members does not raise — it prints
`objective "..." not found` and returns `None`; failure is deferred to
whenever the caller uses that `None`. -/
theorem C6_get_pf_no_raise :
    get_pf_for_obj (.OTHER "min-cost-flow") 4 true "inv-cap" =
      .printed_none "objective \"min-cost-flow\" not found"
    ∧ (get_pf_for_obj (.OTHER "min-cost-flow") 4 true "inv-cap").isRaised
      = false :=
  ⟨rfl, rfl⟩

/-- Claim C6 (amended): constructing an `ODDualFormulation` with a
distance metric other than "inv-cap" or "min-hop" raises an
invalid-configuration exception at construction time; `get_pf_for_obj`
with an objective other than the four recognized ones, however, does not
fail fast: it prints a not-found message and returns `None` instead of
raising. -/
theorem C6_config_errors (objective : Objective) (np : Nat)
    (ed : Bool) (dm : String) (dbg vb : Bool)
    (h1 : dm ≠ "inv-cap") (h2 : dm ≠ "min-hop") :
    ODDualFormulation_init objective np ed dm dbg vb =
      .error ("invalid distance metric: " ++ dm ++
        "; only \"inv-cap\" and \"min-hop\" are valid choices")
    ∧ ∀ name : String, get_pf_for_obj (.OTHER name) np ed dm =
        .printed_none ("objective \"" ++ name ++ "\" not found") := by
  constructor
  · unfold ODDualFormulation_init
    rw [if_pos ⟨h1, h2⟩]
  · intro name
    rfl

/-- Witness for `C6_config_errors` with the metric "euclidean". -/
theorem C6_config_errors_witness :
    ("euclidean" ≠ "inv-cap") ∧ ("euclidean" ≠ "min-hop") ∧
    ODDualFormulation_init .TOTAL_FLOW 4 true "euclidean" false false =
      .error ("invalid distance metric: " ++ "euclidean" ++
        "; only \"inv-cap\" and \"min-hop\" are valid choices") :=
  ⟨by decide, by decide,
    (C6_config_errors .TOTAL_FLOW 4 true "euclidean" false false
      (by decide) (by decide)).1⟩

/-- Claim C7, counterexample: a corrupted cache file is not silently
recovered — the `except` clause catches only `FileNotFoundError`, so an
unpickling failure propagates to the caller as an error. -/
theorem C7_corrupt_cache_raises :
    read_paths_from_disk_or_compute
      (.loadFailure "UnpicklingError: invalid load key") [0, 1]
      (fun _ _ => []) id =
      .error "UnpicklingError: invalid load key" :=
  rfl

/-- Claim C7 (amended): `read_paths_from_disk_or_compute` silently falls
back to recomputing the path set (and writes it back to the cache) only
when the cache file is missing (`FileNotFoundError`); a successful load
returns the re-stripped cached paths with no write-back; any other load
failure (a corrupted cache file) surfaces as an error to the caller. -/
theorem C7_cache_fallback (msg : String) (nodes : List Nat)
    (find_paths : Nat → Nat → List NodePath)
    (remove_cycles : NodePath → NodePath) :
    read_paths_from_disk_or_compute .fileNotFound nodes find_paths
        remove_cycles =
      .ok ⟨compute_paths nodes find_paths remove_cycles, true⟩
    ∧ read_paths_from_disk_or_compute (.loadFailure msg) nodes find_paths
        remove_cycles = .error msg
    ∧ ∀ dd, read_paths_from_disk_or_compute (.loaded dd) nodes find_paths
        remove_cycles =
      .ok ⟨dd.map (fun kp => (kp.1, kp.2.map remove_cycles)), false⟩ :=
  ⟨rfl, rfl, fun _ => rfl⟩

/-- Claim C3: after the three multiplier updates of a round, every edge
multiplier, site multiplier, and path multiplier value is nonnegative,
and on the keys the update loops visit the updates are
`mu_new = max(0, mu_old + eps*(aggregate path flow on edge - capacity))`
(`ETA = 1`), `nu_new = max(0, nu_old + eps*(demand - aggregate flow for
the pair))`, and `beta_new = max(0, beta_old - eps*flow_on_path)`. -/
theorem C3_multipliers_nonneg (cap : Edge → ℚ) (d : InitAccum)
    (round : Nat) (st : DualState) (e : Edge) (s : Site) (p : Nat) :
    (0 ≤ (roundStep cap d round st).mu e
      ∧ 0 ≤ (roundStep cap d round st).nu s
      ∧ 0 ≤ (roundStep cap d round st).beta p)
    ∧ (d.edgeToPathIds e ≠ [] →
        (roundStep cap d round st).mu e =
          max 0 (st.mu e + EPSILON round *
            (((d.edgeToPathIds e).map st.xr).sum - cap e)))
    ∧ (d.sitesToPathIds s ≠ [] →
        (roundStep cap d round st).nu s =
          max 0 (st.nu s + EPSILON round *
            (d.sitesToDemand s - ((d.sitesToPathIds s).map st.xr).sum)))
    ∧ ((d.allPathsDicty p).isSome →
        (roundStep cap d round st).beta p =
          max 0 (st.beta p - EPSILON round * st.xr p)) := by
  refine ⟨⟨?_, ?_, ?_⟩, ?_, ?_, ?_⟩
  · simp only [roundStep]
    split
    · exact le_refl 0
    · exact le_max_right _ 0
  · simp only [roundStep]
    split
    · exact le_refl 0
    · exact le_max_right _ 0
  · simp only [roundStep]
    split
    · exact le_max_right _ 0
    · exact le_refl 0
  · intro h
    simp only [roundStep]
    rw [if_neg h, max_comm, ETA, one_mul]
  · intro h
    simp only [roundStep]
    rw [if_neg h, max_comm]
  · intro h
    simp only [roundStep]
    rw [if_pos h, max_comm]

/-- A one-edge index used by the witness of `C3_multipliers_nonneg`. -/
def edgeIndexW : InitAccum :=
  { initAccum0 with edgeToPathIds := fun e => if e = (0, 1) then [0] else [] }

/-- Witness for `C3_multipliers_nonneg` on a one-edge index: the edge
`(0, 1)` carries path 0, and the edge-multiplier update takes the
claimed `max(0, ...)` form there. -/
theorem C3_multipliers_nonneg_witness :
    (edgeIndexW.edgeToPathIds (0, 1) ≠ []) ∧
    (roundStep (fun _ => 5) edgeIndexW 1
        (initialDualState fun _ => 0)).mu (0, 1) =
      max 0 ((initialDualState (fun _ => (0 : ℚ))).mu (0, 1) +
        EPSILON 1 * (((edgeIndexW.edgeToPathIds (0, 1)).map
          (initialDualState (fun _ => (0 : ℚ))).xr).sum -
            (fun (_ : Edge) => (5 : ℚ)) (0, 1))) := by
  have hne : edgeIndexW.edgeToPathIds (0, 1) ≠ [] := by
    simp [edgeIndexW]
  exact ⟨hne, (C3_multipliers_nonneg (fun _ => 5) edgeIndexW 1
    (initialDualState fun _ => 0) (0, 1) (0, 1) 0).2.1 hne⟩

/-- The invariant tying `path_id_to_min_capacity` to the edges recorded
in `path_ids_to_edge`: the stored value is the running minimum of the
normalized capacities of the path's edges, folded from the
`defaultdict` default `10000000`. -/
def minCapInvariant (cap : Edge → ℚ) (st : InitAccum) : Prop :=
  ∀ p, st.pathIdToMinCapacity p =
    (st.pathIdsToEdge p).foldl (fun mval e => min mval (cap e)) 10000000

/-- `edgeStep` preserves the bottleneck-capacity invariant. -/
theorem edgeStep_minCapInv (cap : Edge → ℚ) (pid : Nat) (st : InitAccum)
    (e : Edge) (h : minCapInvariant cap st) :
    minCapInvariant cap (edgeStep cap pid st e) := by
  intro p
  by_cases hp : p = pid
  · subst hp
    simp [edgeStep, h p, List.foldl_append]
  · simp [edgeStep, hp, h p]

/-- The edge loop preserves the bottleneck-capacity invariant. -/
theorem foldlEdges_minCapInv (cap : Edge → ℚ) (pid : Nat) :
    ∀ (l : List Edge) (st : InitAccum), minCapInvariant cap st →
      minCapInvariant cap (l.foldl (edgeStep cap pid) st) := by
  intro l
  induction l with
  | nil => intro st h; exact h
  | cons e rest ih =>
    intro st h
    exact ih (edgeStep cap pid st e) (edgeStep_minCapInv cap pid st e h)

/-- `pathStep` preserves the bottleneck-capacity invariant. -/
theorem pathStep_minCapInv (cap : Edge → ℚ) (ptel : NodePath → List Edge)
    (site : Site) (dk : ℚ) (st : InitAccum) (path : NodePath)
    (h : minCapInvariant cap st) :
    minCapInvariant cap (pathStep cap ptel site dk st path) := by
  intro p
  simp only [pathStep]
  apply foldlEdges_minCapInv cap st.pathIds (ptel path)
  exact fun q => h q

/-- The path loop preserves the bottleneck-capacity invariant. -/
theorem foldlPaths_minCapInv (cap : Edge → ℚ) (ptel : NodePath → List Edge)
    (site : Site) (dk : ℚ) :
    ∀ (l : List NodePath) (st : InitAccum), minCapInvariant cap st →
      minCapInvariant cap (l.foldl (pathStep cap ptel site dk) st) := by
  intro l
  induction l with
  | nil => intro st h; exact h
  | cons path rest ih =>
    intro st h
    exact ih _ (pathStep_minCapInv cap ptel site dk st path h)

/-- `commodityStep` preserves the bottleneck-capacity invariant. -/
theorem commodityStep_minCapInv (cap : Edge → ℚ)
    (ptel : NodePath → List Edge) (aps : Site → List NodePath)
    (st : InitAccum) (c : Commodity) (h : minCapInvariant cap st) :
    minCapInvariant cap (commodityStep cap ptel aps st c) :=
  foldlPaths_minCapInv cap ptel c.site c.demand (aps c.site) _
    (fun q => h q)

/-- After the full indexing pass, `path_id_to_min_capacity` holds, for
every path id, the minimum of the normalized capacities of the path's
recorded edges (folded from the default `10000000`). -/
theorem solveInit_minCap (cap : Edge → ℚ) (ptel : NodePath → List Edge)
    (aps : Site → List NodePath) (cl : List Commodity) :
    minCapInvariant cap (solveInit cap ptel aps cl) := by
  unfold solveInit
  have base : minCapInvariant cap initAccum0 := fun p => rfl
  revert base
  generalize initAccum0 = st0
  induction cl generalizing st0 with
  | nil => intro h; exact h
  | cons c rest ih =>
    intro h
    exact ih _ (commodityStep_minCapInv cap ptel aps st0 c h)

/-- Claim C1: in every round, the flow recomputation for each recorded
path sets `denominator` to the sum of the freshly updated edge
multipliers `mu` along the path's edges minus the freshly updated site
multiplier `nu` of the path's endpoint pair; if the denominator is
nonpositive the allocation is the path's bottleneck capacity
(`path_id_to_min_capacity`, the minimum normalized capacity over the
path's edges — third conjunct), otherwise
`min(1/denominator, bottleneck)`.  The path multiplier `beta` does not
contribute: the recomputed flow is unchanged under any replacement of
the `beta` state (second conjunct). -/
theorem C1_flow_recomputation (cap : Edge → ℚ) (d : InitAccum)
    (round : Nat) (st : DualState) (p : Nat) (path : NodePath)
    (hp : d.allPathsDicty p = some path) :
    ((roundStep cap d round st).xr p =
      (let den := ((d.pathIdsToEdge p).map (roundStep cap d round st).mu).sum
          - (roundStep cap d round st).nu (path.headD 0, path.getLastD 0)
       if den ≤ 0 then d.pathIdToMinCapacity p
       else min (1 / den) (d.pathIdToMinCapacity p)))
    ∧ (∀ b : Nat → ℚ,
        (roundStep cap d round { st with beta := b }).xr p =
          (roundStep cap d round st).xr p)
    ∧ (∀ (ptel : NodePath → List Edge) (aps : Site → List NodePath)
        (cl : List Commodity) (q : Nat),
        (solveInit cap ptel aps cl).pathIdToMinCapacity q =
          ((solveInit cap ptel aps cl).pathIdsToEdge q).foldl
            (fun mval e => min mval (cap e)) 10000000) := by
  refine ⟨?_, fun b => rfl, fun ptel aps cl q => solveInit_minCap cap ptel aps cl q⟩
  simp only [roundStep, hp]

/-- A feasible assignment satisfies every constraint of the model. -/
theorem feasible_mem_constr {m : LpModel} {ρ : LpVar → ℚ}
    (hf : m.feasible ρ = true) {c : LpConstr} (hc : c ∈ m.constrs) :
    c.sat ρ = true := by
  unfold LpModel.feasible at hf
  rw [Bool.and_eq_true] at hf
  exact List.all_eq_true.mp hf.1 c hc

/-- A feasible assignment respects every variable bound of the model. -/
theorem feasible_mem_bound {m : LpModel} {ρ : LpVar → ℚ}
    (hf : m.feasible ρ = true) {b : LpVar × ℚ × Option ℚ}
    (hb : b ∈ m.varBounds) : boundSat ρ b = true := by
  unfold LpModel.feasible at hf
  rw [Bool.and_eq_true] at hf
  exact List.all_eq_true.mp hf.2 b hb

/-- Reading a satisfied `≤` constraint. -/
theorem sat_le_iff (ρ : LpVar → ℚ) (coef : ℚ) (paths : List Nat)
    (rhs : LpBound) :
    LpConstr.sat ρ ⟨⟨coef, paths⟩, .le, rhs⟩ = true ↔
      coef * sumFlow ρ paths ≤ rhs.eval ρ := by
  simp [LpConstr.sat, PathSum.eval]

/-- Reading a satisfied `≥` constraint. -/
theorem sat_ge_iff (ρ : LpVar → ℚ) (coef : ℚ) (paths : List Nat)
    (rhs : LpBound) :
    LpConstr.sat ρ ⟨⟨coef, paths⟩, .ge, rhs⟩ = true ↔
      coef * sumFlow ρ paths ≥ rhs.eval ρ := by
  simp [LpConstr.sat, PathSum.eval]

/-- Reading a satisfied `==` constraint. -/
theorem sat_eq_iff (ρ : LpVar → ℚ) (coef : ℚ) (paths : List Nat)
    (rhs : LpBound) :
    LpConstr.sat ρ ⟨⟨coef, paths⟩, .eq, rhs⟩ = true ↔
      coef * sumFlow ρ paths = rhs.eval ρ := by
  simp [LpConstr.sat, PathSum.eval]

/-- Claim C5: under `MIN_MAX_LINK_UTIL` and
`COMPUTE_DEMAND_SCALE_FACTOR`, `_construct_path_lp` builds a model whose
objective is `minimize z` with `z ≥ 0` (upper-bounded by 1 for
`MIN_MAX_LINK_UTIL`, unbounded for `COMPUTE_DEMAND_SCALE_FACTOR`), and
every feasible assignment satisfies `Σ flow / capacity ≤ z` for every
edge with nonzero capacity, `Σ flow ≤ 0` for every zero-capacity edge,
and the exact demand equality `Σ over the commodity's paths = demand`
for every commodity. -/
theorem C5_min_max_lp (objective : Objective)
    (hobj : objective = .MIN_MAX_LINK_UTIL ∨
      objective = .COMPUTE_DEMAND_SCALE_FACTOR)
    (edges : List (Edge × ℚ)) (etp : List (Edge × List Nat)) (n : Nat)
    (commodities : List (Nat × ℚ × List Nat))
    (sf : List (List Nat × ℚ)) (m : LpModel)
    (hm : construct_path_lp objective edges etp n commodities sf = some m)
    (ρ : LpVar → ℚ) (hρ : m.feasible ρ = true) :
    m.objective = ⟨false, .var .z⟩
    ∧ (objective = .MIN_MAX_LINK_UTIL →
        (LpVar.z, (0 : ℚ), (some 1 : Option ℚ)) ∈ m.varBounds)
    ∧ (objective = .COMPUTE_DEMAND_SCALE_FACTOR →
        (LpVar.z, (0 : ℚ), (none : Option ℚ)) ∈ m.varBounds)
    ∧ 0 ≤ ρ .z
    ∧ (∀ ec : Edge × ℚ, ec ∈ edges → ec.2 ≠ 0 →
        sumFlow ρ ((lookupEdgePaths etp ec.1).getD []) / ec.2 ≤ ρ .z)
    ∧ (∀ ec : Edge × ℚ, ec ∈ edges → ec.2 = 0 →
        sumFlow ρ ((lookupEdgePaths etp ec.1).getD []) ≤ 0)
    ∧ (∀ c : Nat × ℚ × List Nat, c ∈ commodities →
        sumFlow ρ c.2.2 = c.2.1) := by
  have main : ∀ (zub : Option ℚ),
      m.varBounds = ((List.range n).map
          (fun p => ((LpVar.f p : LpVar), (0 : ℚ), (none : Option ℚ))))
          ++ [(LpVar.z, (0 : ℚ), zub)] →
      m.constrs = edgeUtilConstrs edges etp ++ demandEqConstrs commodities
          ++ (buildSatFlowConstrs commodities sf).getD [] →
      (0 ≤ ρ .z
      ∧ (∀ ec : Edge × ℚ, ec ∈ edges → ec.2 ≠ 0 →
          sumFlow ρ ((lookupEdgePaths etp ec.1).getD []) / ec.2 ≤ ρ .z)
      ∧ (∀ ec : Edge × ℚ, ec ∈ edges → ec.2 = 0 →
          sumFlow ρ ((lookupEdgePaths etp ec.1).getD []) ≤ 0)
      ∧ (∀ c : Nat × ℚ × List Nat, c ∈ commodities →
          sumFlow ρ c.2.2 = c.2.1)) := by
    intro zub hvb hcs
    have hz : 0 ≤ ρ .z := by
      have hb : (LpVar.z, (0 : ℚ), zub) ∈ m.varBounds := by
        rw [hvb]
        exact List.mem_append_right _ (List.mem_singleton.mpr rfl)
      have := feasible_mem_bound hρ hb
      unfold boundSat at this
      rw [Bool.and_eq_true] at this
      exact of_decide_eq_true this.1
    refine ⟨hz, ?_, ?_, ?_⟩
    · intro ec hec hc0
      cases hl : lookupEdgePaths etp ec.1 with
      | none =>
        simp only [hl, Option.getD_none]
        have : sumFlow ρ ([] : List Nat) = 0 := rfl
        rw [this, zero_div]
        exact hz
      | some paths =>
        have hmem : (⟨⟨1 / ec.2, paths⟩, .le, .var .z⟩ : LpConstr) ∈
            edgeUtilConstrs edges etp := by
          rw [edgeUtilConstrs, List.mem_filterMap]
          exact ⟨ec, hec, by rw [hl]; simp [hc0]⟩
        have hsat := feasible_mem_constr hρ (by
          rw [hcs]
          exact List.mem_append_left _ (List.mem_append_left _ hmem))
        rw [sat_le_iff] at hsat
        simpa [hl, LpBound.eval, div_eq_inv_mul, one_div] using hsat
    · intro ec hec hc0
      cases hl : lookupEdgePaths etp ec.1 with
      | none =>
        simp only [hl, Option.getD_none]
        exact le_of_eq rfl
      | some paths =>
        have hmem : (⟨⟨1, paths⟩, .le, .const 0⟩ : LpConstr) ∈
            edgeUtilConstrs edges etp := by
          rw [edgeUtilConstrs, List.mem_filterMap]
          exact ⟨ec, hec, by rw [hl]; simp [hc0]⟩
        have hsat := feasible_mem_constr hρ (by
          rw [hcs]
          exact List.mem_append_left _ (List.mem_append_left _ hmem))
        rw [sat_le_iff] at hsat
        simpa [hl, LpBound.eval] using hsat
    · intro c hc
      have hmem : (⟨⟨1, c.2.2⟩, .eq, .const c.2.1⟩ : LpConstr) ∈
          demandEqConstrs commodities :=
        List.mem_map.mpr ⟨c, hc, rfl⟩
      have hsat := feasible_mem_constr hρ (by
        rw [hcs]
        exact List.mem_append_left _ (List.mem_append_right _ hmem))
      rw [sat_eq_iff] at hsat
      simpa [LpBound.eval] using hsat
  rcases hobj with h | h <;> subst h
  · unfold construct_path_lp at hm
    cases hsat : buildSatFlowConstrs commodities sf with
    | none => rw [hsat] at hm; exact absurd hm (by simp)
    | some sc =>
      rw [hsat] at hm
      simp only [Option.some.injEq] at hm
      subst hm
      refine ⟨rfl, ?_, ?_, ?_⟩
      · intro _
        exact List.mem_append_right _ (List.mem_singleton.mpr rfl)
      · intro hh
        exact absurd hh (by simp)
      · exact main _ rfl (by rw [hsat]; rfl)
  · unfold construct_path_lp at hm
    cases hsat : buildSatFlowConstrs commodities sf with
    | none => rw [hsat] at hm; exact absurd hm (by simp)
    | some sc =>
      rw [hsat] at hm
      simp only [Option.some.injEq] at hm
      subst hm
      refine ⟨rfl, ?_, ?_, ?_⟩
      · intro hh
        exact absurd hh (by simp)
      · intro _
        exact List.mem_append_right _ (List.mem_singleton.mpr rfl)
      · exact main _ rfl (by rw [hsat]; rfl)

/-- A concrete model instance: one edge `(0,1)` of capacity 5 carrying
path 0, one commodity of demand 3 routed on path 0, no flow caps. -/
def exampleLpModel : LpModel :=
  ⟨[(.f 0, 0, none), (.z, 0, some 1)],
   [⟨⟨1 / 5, [0]⟩, .le, .var .z⟩, ⟨⟨1, [0]⟩, .eq, .const 3⟩],
   ⟨false, .var .z⟩⟩

/-- A concrete feasible assignment for `exampleLpModel`. -/
def exampleAssignment : LpVar → ℚ := fun v =>
  match v with
  | .f _ => 3
  | .z => 3 / 5
  | .a => 0

/-- Witness for `C5_min_max_lp` on the concrete instance. -/
theorem C5_min_max_lp_witness :
    construct_path_lp .MIN_MAX_LINK_UTIL [((0, 1), 5)] [((0, 1), [0])] 1
        [(0, 3, [0])] [] = some exampleLpModel
    ∧ exampleLpModel.feasible exampleAssignment = true
    ∧ 0 ≤ exampleAssignment .z := by
  have hfeas : exampleLpModel.feasible exampleAssignment = true := by
    norm_num [LpModel.feasible, exampleLpModel, exampleAssignment,
      LpConstr.sat, boundSat, PathSum.eval, sumFlow, LpBound.eval,
      List.all_cons, List.all_nil]
  exact ⟨rfl, hfeas,
    (C5_min_max_lp .MIN_MAX_LINK_UTIL (Or.inl rfl) [((0, 1), 5)]
      [((0, 1), [0])] 1 [(0, 3, [0])] [] exampleLpModel rfl
      exampleAssignment hfeas).2.2.2.1⟩

/-- The flow-cap loop produces exactly one constraint per `sat_flows`
entry. -/
theorem buildSatFlowConstrs_length
    (commodities : List (Nat × ℚ × List Nat)) :
    ∀ (sf : List (List Nat × ℚ)) (cs : List LpConstr),
      buildSatFlowConstrs commodities sf = some cs →
      cs.length = sf.length := by
  intro sf
  induction sf with
  | nil =>
    intro cs h
    simp only [buildSatFlowConstrs, Option.some.injEq] at h
    subst h
    rfl
  | cons hd tl ih =>
    intro cs h
    obtain ⟨ks, fv⟩ := hd
    simp only [buildSatFlowConstrs] at h
    cases hp : pathsForCommods commodities ks with
    | none => rw [hp] at h; exact absurd h (by simp)
    | some pids =>
      rw [hp] at h
      cases hq : buildSatFlowConstrs commodities tl with
      | none => rw [hq] at h; exact absurd h (by simp)
      | some cs2 =>
        rw [hq] at h
        simp only [Option.map, Option.some.injEq] at h
        subst h
        simp [ih cs2 hq]

/-- Every `sat_flows` entry contributes its flow-cap constraint. -/
theorem buildSatFlowConstrs_mem
    (commodities : List (Nat × ℚ × List Nat)) :
    ∀ (sf : List (List Nat × ℚ)) (cs : List LpConstr),
      buildSatFlowConstrs commodities sf = some cs →
      ∀ (ks : List Nat) (fv : ℚ), (ks, fv) ∈ sf →
        ∃ pids, pathsForCommods commodities ks = some pids
          ∧ satFlowConstr pids fv ∈ cs := by
  intro sf
  induction sf with
  | nil =>
    intro cs _ ks fv hmem
    exact absurd hmem (by simp)
  | cons hd tl ih =>
    intro cs h ks fv hmem
    obtain ⟨ks0, fv0⟩ := hd
    simp only [buildSatFlowConstrs] at h
    cases hp : pathsForCommods commodities ks0 with
    | none => rw [hp] at h; exact absurd h (by simp)
    | some pids0 =>
      rw [hp] at h
      cases hq : buildSatFlowConstrs commodities tl with
      | none => rw [hq] at h; exact absurd h (by simp)
      | some cs2 =>
        rw [hq] at h
        simp only [Option.map, Option.some.injEq] at h
        subst h
        rcases List.mem_cons.mp hmem with heq | htl
        · obtain ⟨h1, h2⟩ := Prod.mk.injEq .. ▸ congrArg id heq
          · exact ⟨pids0, by rw [← h1] at hp; exact hp,
              by rw [← h2]; exact List.mem_cons_self _ _⟩
        · obtain ⟨pids, hp2, hmem2⟩ := ih cs2 hq ks fv htl
          exact ⟨pids, hp2, List.mem_cons_of_mem _ hmem2⟩

/-- Feasible assignments meet every flow-cap constraint present in a
model. -/
theorem satFlowConstr_semantic {m : LpModel} (pids : List Nat) (fv : ℚ)
    (hmem : satFlowConstr pids fv ∈ m.constrs) (ρ : LpVar → ℚ)
    (hρ : m.feasible ρ = true) :
    (99 / 100) * fv ≤ sumFlow ρ pids := by
  have h := feasible_mem_constr hρ hmem
  rw [satFlowConstr, sat_ge_iff] at h
  simpa [LpBound.eval] using h

/-- Claim C8: for every `(commodity subset, flow value)` pair in
`sat_flows`, `_construct_path_lp` adds exactly one constraint (the
constraint count exceeds the `sat_flows = []` model's count by exactly
the number of entries) forcing the combined allocation over all paths of
those commodities to be at least `0.99` times the flow value. -/
theorem C8_flow_cap_constraints (objective : Objective)
    (edges : List (Edge × ℚ)) (etp : List (Edge × List Nat)) (n : Nat)
    (commodities : List (Nat × ℚ × List Nat))
    (sf : List (List Nat × ℚ)) (m : LpModel)
    (hm : construct_path_lp objective edges etp n commodities sf = some m) :
    (∃ m0 : LpModel,
        construct_path_lp objective edges etp n commodities [] = some m0
        ∧ m.constrs.length = m0.constrs.length + sf.length)
    ∧ ∀ (ks : List Nat) (fv : ℚ), (ks, fv) ∈ sf → ∃ pids,
        pathsForCommods commodities ks = some pids
        ∧ satFlowConstr pids fv ∈ m.constrs
        ∧ ∀ ρ : LpVar → ℚ, m.feasible ρ = true →
            (99 / 100) * fv ≤ sumFlow ρ pids := by
  unfold construct_path_lp at hm
  cases hsat : buildSatFlowConstrs commodities sf with
  | none => rw [hsat] at hm; exact absurd hm (by simp)
  | some sc =>
    rw [hsat] at hm
    have hlen := buildSatFlowConstrs_length commodities sf sc hsat
    have hmem := buildSatFlowConstrs_mem commodities sf sc hsat
    cases objective with
    | OTHER name => exact absurd hm (by simp)
    | MIN_MAX_LINK_UTIL =>
      simp only [Option.some.injEq] at hm
      subst hm
      refine ⟨⟨_, rfl, by simp [hlen, Nat.add_assoc]⟩, fun ks fv hin => ?_⟩
      obtain ⟨pids, hp, hc⟩ := hmem ks fv hin
      exact ⟨pids, hp, List.mem_append_right _ hc,
        fun ρ hρ => satFlowConstr_semantic pids fv
          (List.mem_append_right _ hc) ρ hρ⟩
    | COMPUTE_DEMAND_SCALE_FACTOR =>
      simp only [Option.some.injEq] at hm
      subst hm
      refine ⟨⟨_, rfl, by simp [hlen, Nat.add_assoc]⟩, fun ks fv hin => ?_⟩
      obtain ⟨pids, hp, hc⟩ := hmem ks fv hin
      exact ⟨pids, hp, List.mem_append_right _ hc,
        fun ρ hρ => satFlowConstr_semantic pids fv
          (List.mem_append_right _ hc) ρ hρ⟩
    | TOTAL_FLOW =>
      simp only [Option.some.injEq] at hm
      subst hm
      refine ⟨⟨_, rfl, by simp [hlen, Nat.add_assoc]⟩, fun ks fv hin => ?_⟩
      obtain ⟨pids, hp, hc⟩ := hmem ks fv hin
      exact ⟨pids, hp, List.mem_append_right _ hc,
        fun ρ hρ => satFlowConstr_semantic pids fv
          (List.mem_append_right _ hc) ρ hρ⟩
    | MAX_CONCURRENT_FLOW =>
      simp only [Option.some.injEq] at hm
      subst hm
      refine ⟨⟨_, rfl, by simp [hlen, Nat.add_assoc]⟩, fun ks fv hin => ?_⟩
      obtain ⟨pids, hp, hc⟩ := hmem ks fv hin
      exact ⟨pids, hp, List.mem_append_right _ hc,
        fun ρ hρ => satFlowConstr_semantic pids fv
          (List.mem_append_right _ hc) ρ hρ⟩

/-- Witness for `C8_flow_cap_constraints` on a concrete instance: one
commodity of demand 3 on path 0, one flow cap requiring 99% of flow
value 2 across that commodity. -/
theorem C8_flow_cap_constraints_witness :
    (99 / 100 : ℚ) * 2 ≤ sumFlow (fun _ => (2 : ℚ)) [0] := by
  obtain ⟨pids, hp, hc, hsem⟩ :=
    (C8_flow_cap_constraints .TOTAL_FLOW [] [] 1 [(0, 3, [0])]
      [([0], 2)]
      ⟨[(.f 0, 0, none)],
        [⟨⟨1, [0]⟩, .le, .const 3⟩, satFlowConstr [0] 2],
        ⟨true, .const 0⟩⟩ rfl).2 [0] 2 (List.mem_singleton.mpr rfl)
  have hpids : ([0] : List Nat) = pids :=
    Option.some.inj ((show pathsForCommods [(0, 3, [0])] [0] =
      some [0] from rfl).symm.trans hp)
  subst hpids
  apply hsem
  norm_num [LpModel.feasible, LpConstr.sat, boundSat, PathSum.eval,
    sumFlow, LpBound.eval, satFlowConstr, List.all_cons, List.all_nil]

/-- Witness for `C1_flow_recomputation` on a one-path index. -/
theorem C1_flow_recomputation_witness :
    ({ initAccum0 with
        allPathsDicty := fun p => if p = 0 then some [0, 1] else none,
        pathIdsToEdge := fun p => if p = 0 then [(0, 1)] else [],
        pathIdToMinCapacity := fun _ => 7 } : InitAccum).allPathsDicty 0 =
      some [0, 1]
    ∧ (roundStep (fun _ => 1)
        { initAccum0 with
          allPathsDicty := fun p => if p = 0 then some [0, 1] else none,
          pathIdsToEdge := fun p => if p = 0 then [(0, 1)] else [],
          pathIdToMinCapacity := fun _ => 7 } 1
        (initialDualState fun _ => 0)).xr 0 =
      (let den := ((({ initAccum0 with
            allPathsDicty := fun p => if p = 0 then some [0, 1] else none,
            pathIdsToEdge := fun p => if p = 0 then [(0, 1)] else [],
            pathIdToMinCapacity := fun _ => 7 } : InitAccum).pathIdsToEdge
              0).map
            (roundStep (fun _ => 1)
              { initAccum0 with
                allPathsDicty := fun p => if p = 0 then some [0, 1] else none,
                pathIdsToEdge := fun p => if p = 0 then [(0, 1)] else [],
                pathIdToMinCapacity := fun _ => 7 } 1
              (initialDualState fun _ => 0)).mu).sum
          - (roundStep (fun _ => 1)
              { initAccum0 with
                allPathsDicty := fun p => if p = 0 then some [0, 1] else none,
                pathIdsToEdge := fun p => if p = 0 then [(0, 1)] else [],
                pathIdToMinCapacity := fun _ => 7 } 1
              (initialDualState fun _ => 0)).nu
              (([0, 1] : NodePath).headD 0, ([0, 1] : NodePath).getLastD 0)
       if den ≤ 0 then
         ({ initAccum0 with
            allPathsDicty := fun p => if p = 0 then some [0, 1] else none,
            pathIdsToEdge := fun p => if p = 0 then [(0, 1)] else [],
            pathIdToMinCapacity := fun _ => 7 } : InitAccum).pathIdToMinCapacity 0
       else min (1 / den)
         (({ initAccum0 with
            allPathsDicty := fun p => if p = 0 then some [0, 1] else none,
            pathIdsToEdge := fun p => if p = 0 then [(0, 1)] else [],
            pathIdToMinCapacity := fun _ => 7 } : InitAccum).pathIdToMinCapacity 0)) :=
  ⟨rfl, (C1_flow_recomputation (fun _ => 1)
    { initAccum0 with
      allPathsDicty := fun p => if p = 0 then some [0, 1] else none,
      pathIdsToEdge := fun p => if p = 0 then [(0, 1)] else [],
      pathIdToMinCapacity := fun _ => 7 } 1
    (initialDualState fun _ => 0) 0 [0, 1] rfl).1⟩

/-- Witness for `C2_fixed_rounds`: with fuel for only 5 rounds the loop
is still running. -/
theorem C2_fixed_rounds_witness :
    (5 < MAX_ROUNDS) ∧
    solveLoop (fun _ => 0) initAccum0 MAX_ROUNDS 5 1
      (initialDualState fun _ => 0) = none :=
  ⟨by norm_num [MAX_ROUNDS],
    C2_fixed_rounds.2.2.1 (fun _ => 0) initAccum0
      (initialDualState fun _ => 0) 5 (by norm_num [MAX_ROUNDS])⟩

/-- One configuration of the benchmark sweep loops of
`benchmarks/pop.py` (a member of the product of `num_subproblems_sweep`,
`split_methods_sweep`, `split_fraction_sweep`) and of
`benchmarks/pop_num_subproblems_sweep.py` (where split method and
fraction are fixed). -/
structure SweepConfig where
  num_subproblems : Nat
  split_method : String
  split_fraction : ℚ
deriving DecidableEq, Repr

/-- What one iteration of the sweep loop leaves behind: a CSV result row
on success, or the printed failure banner plus traceback when the
`except` clause fires. -/
inductive SweepLogEntry (Row : Type)
  | csv_row (r : Row)
  | logged_failure (traceback : String)
deriving DecidableEq, Repr

/-- Embedding of the per-configuration loop of `benchmark` in
`benchmarks/pop.py` (lines 82-183) and
`benchmarks/pop_num_subproblems_sweep.py` (lines 69-166).  `mkRunDir`
models the `run_dir` construction and `os.makedirs` at the top of each
iteration — inside the loop but before (outside) the `try`, so its
exception propagates and ends the whole sweep.  `runConfig` models the
`try` body (POP construction, solve, feasibility check, CSV row); its
exception is caught by the bare `except`, which prints the failure and
the traceback and lets the loop continue. -/
def benchmark_sweep {Row : Type}
    (mkRunDir : SweepConfig → Except String Unit)
    (runConfig : SweepConfig → Except String Row) :
    List SweepConfig → Except String (List (SweepLogEntry Row))
  | [] => .ok []
  | cfg :: rest =>
    match mkRunDir cfg with
    | .error e => .error e
    | .ok _ =>
      let entry : SweepLogEntry Row :=
        match runConfig cfg with
        | .ok r => .csv_row r
        | .error tb => .logged_failure tb
      match benchmark_sweep mkRunDir runConfig rest with
      | .error e => .error e
      | .ok others => .ok (entry :: others)

/-- Claim C9, counterexample: an exception raised while handling the
first configuration — in the `run_dir` creation, which sits inside the
per-configuration loop but outside the `try` — is not caught: the sweep
aborts with the error and the second configuration is never attempted. -/
theorem C9_sweep_aborts :
    benchmark_sweep (fun _ => .error "OSError: cannot create run dir")
      (fun _ => Except.ok 0)
      [⟨16, "random", 0⟩, ⟨64, "random", 0⟩] =
      .error "OSError: cannot create run dir" :=
  rfl

/-- Claim C9 (amended): provided the `run_dir` creation at the top of
each iteration (outside the `try`) succeeds, every exception raised in a
configuration's `try` body is caught inside the loop, recorded as a
logged failure with its traceback, and the sweep continues through all
remaining configurations: the result is one log entry per configuration,
in order. -/
theorem C9_sweep_catchall {Row : Type}
    (mkRunDir : SweepConfig → Except String Unit)
    (runConfig : SweepConfig → Except String Row)
    (configs : List SweepConfig)
    (hdir : ∀ cfg ∈ configs, mkRunDir cfg = .ok ()) :
    benchmark_sweep mkRunDir runConfig configs =
      .ok (configs.map (fun cfg =>
        match runConfig cfg with
        | .ok r => SweepLogEntry.csv_row r
        | .error tb => SweepLogEntry.logged_failure tb)) := by
  induction configs with
  | nil => rfl
  | cons cfg rest ih =>
    simp only [benchmark_sweep, List.map_cons,
      hdir cfg (List.mem_cons_self _ _),
      ih (fun c hc => hdir c (List.mem_cons_of_mem _ hc))]

/-- Witness for `C9_sweep_catchall`: the first configuration succeeds,
the second raises inside the `try`; the failure is logged and the sweep
still produces an entry for every configuration. -/
theorem C9_sweep_catchall_witness :
    benchmark_sweep (fun _ => Except.ok ())
      (fun cfg => if cfg.num_subproblems = 16 then Except.ok 1
        else Except.error "Gurobi: model is infeasible")
      [⟨16, "random", 0⟩, ⟨64, "random", 0⟩] =
      Except.ok [SweepLogEntry.csv_row 1,
        SweepLogEntry.logged_failure "Gurobi: model is infeasible"] := by
  rw [C9_sweep_catchall (fun _ => Except.ok ())
    (fun cfg => if cfg.num_subproblems = 16 then Except.ok 1
      else Except.error "Gurobi: model is infeasible")
    [⟨16, "random", 0⟩, ⟨64, "random", 0⟩] (fun _ _ => rfl)]
  rfl

/-- The edge loop changes no field other than the capacity minimum and
the edge↔path indices: the initial flow map is untouched. -/
theorem foldlEdges_xrOld (cap : Edge → ℚ) (pid : Nat) :
    ∀ (l : List Edge) (st : InitAccum),
      (l.foldl (edgeStep cap pid) st).xrOld = st.xrOld := by
  intro l
  induction l with
  | nil => intro st; rfl
  | cons e rest ih => intro st; rw [List.foldl_cons, ih]; rfl

/-- The edge loop does not touch `sites_to_path_ids`. -/
theorem foldlEdges_sites (cap : Edge → ℚ) (pid : Nat) :
    ∀ (l : List Edge) (st : InitAccum),
      (l.foldl (edgeStep cap pid) st).sitesToPathIds = st.sitesToPathIds := by
  intro l
  induction l with
  | nil => intro st; rfl
  | cons e rest ih => intro st; rw [List.foldl_cons, ih]; rfl

/-- The edge loop does not touch `sites_to_demand`. -/
theorem foldlEdges_demand (cap : Edge → ℚ) (pid : Nat) :
    ∀ (l : List Edge) (st : InitAccum),
      (l.foldl (edgeStep cap pid) st).sitesToDemand = st.sitesToDemand := by
  intro l
  induction l with
  | nil => intro st; rfl
  | cons e rest ih => intro st; rw [List.foldl_cons, ih]; rfl

/-- The edge loop does not advance the path id counter. -/
theorem foldlEdges_pathIds (cap : Edge → ℚ) (pid : Nat) :
    ∀ (l : List Edge) (st : InitAccum),
      (l.foldl (edgeStep cap pid) st).pathIds = st.pathIds := by
  intro l
  induction l with
  | nil => intro st; rfl
  | cons e rest ih => intro st; rw [List.foldl_cons, ih]; rfl

/-- `pathStep` advances the path id counter by one. -/
theorem pathStep_pathIds (cap : Edge → ℚ) (ptel : NodePath → List Edge)
    (site : Site) (dk : ℚ) (st : InitAccum) (path : NodePath) :
    (pathStep cap ptel site dk st path).pathIds = st.pathIds + 1 := by
  simp [pathStep, foldlEdges_pathIds]

/-- `pathStep` sets the fresh path id's initial flow to the raw demand
and leaves every other id's flow unchanged. -/
theorem pathStep_xrOld (cap : Edge → ℚ) (ptel : NodePath → List Edge)
    (site : Site) (dk : ℚ) (st : InitAccum) (path : NodePath) :
    (pathStep cap ptel site dk st path).xrOld =
      fun p => if p = st.pathIds then dk else st.xrOld p := by
  simp [pathStep, foldlEdges_xrOld]

/-- `pathStep` appends the fresh path id to its own site's id list and
leaves other sites' lists unchanged. -/
theorem pathStep_sites (cap : Edge → ℚ) (ptel : NodePath → List Edge)
    (site : Site) (dk : ℚ) (st : InitAccum) (path : NodePath) :
    (pathStep cap ptel site dk st path).sitesToPathIds =
      fun s2 => if s2 = site then st.sitesToPathIds site ++ [st.pathIds]
        else st.sitesToPathIds s2 := by
  simp [pathStep, foldlEdges_sites]

/-- `pathStep` does not touch `sites_to_demand`. -/
theorem pathStep_demand (cap : Edge → ℚ) (ptel : NodePath → List Edge)
    (site : Site) (dk : ℚ) (st : InitAccum) (path : NodePath) :
    (pathStep cap ptel site dk st path).sitesToDemand = st.sitesToDemand := by
  simp [pathStep, foldlEdges_demand]

/-- The path loop does not touch `sites_to_demand`. -/
theorem foldlPaths_demand (cap : Edge → ℚ) (ptel : NodePath → List Edge)
    (site : Site) (dk : ℚ) :
    ∀ (l : List NodePath) (st : InitAccum),
      (l.foldl (pathStep cap ptel site dk) st).sitesToDemand =
        st.sitesToDemand := by
  intro l
  induction l with
  | nil => intro st; rfl
  | cons path rest ih =>
    intro st
    rw [List.foldl_cons, ih, pathStep_demand]

/-- The path loop only grows the path id counter. -/
theorem foldlPaths_pathIds_mono (cap : Edge → ℚ)
    (ptel : NodePath → List Edge) (site : Site) (dk : ℚ) :
    ∀ (l : List NodePath) (st : InitAccum),
      st.pathIds ≤ (l.foldl (pathStep cap ptel site dk) st).pathIds := by
  intro l
  induction l with
  | nil => intro st; exact le_refl _
  | cons path rest ih =>
    intro st
    rw [List.foldl_cons]
    refine le_trans ?_ (ih _)
    rw [pathStep_pathIds]
    omega

/-- The path loop leaves the id lists of other sites unchanged. -/
theorem foldlPaths_sites_ne (cap : Edge → ℚ) (ptel : NodePath → List Edge)
    (site : Site) (dk : ℚ) (s2 : Site) (hne : s2 ≠ site) :
    ∀ (l : List NodePath) (st : InitAccum),
      (l.foldl (pathStep cap ptel site dk) st).sitesToPathIds s2 =
        st.sitesToPathIds s2 := by
  intro l
  induction l with
  | nil => intro st; rfl
  | cons path rest ih =>
    intro st
    rw [List.foldl_cons, ih, pathStep_sites]
    simp [hne]

/-- The path loop does not modify the initial flow of already-allocated
path ids. -/
theorem foldlPaths_xrOld_lt (cap : Edge → ℚ) (ptel : NodePath → List Edge)
    (site : Site) (dk : ℚ) :
    ∀ (l : List NodePath) (st : InitAccum) (p : Nat), p < st.pathIds →
      (l.foldl (pathStep cap ptel site dk) st).xrOld p = st.xrOld p := by
  intro l
  induction l with
  | nil => intro st p _; rfl
  | cons path rest ih =>
    intro st p hp
    rw [List.foldl_cons]
    rw [ih _ p (by rw [pathStep_pathIds]; omega), pathStep_xrOld]
    simp [Nat.ne_of_lt hp]

/-- Invariant at the heart of claim C10: every path id recorded for
`site` carries the raw demand `dk` as its initial flow, and is below the
id counter. -/
def siteProp (site : Site) (dk : ℚ) (st : InitAccum) : Prop :=
  ∀ pid ∈ st.sitesToPathIds site, st.xrOld pid = dk ∧ pid < st.pathIds

/-- `pathStep` on the site itself preserves the invariant: the fresh id
receives exactly the raw demand. -/
theorem pathStep_siteProp_own (cap : Edge → ℚ)
    (ptel : NodePath → List Edge) (site : Site) (dk : ℚ)
    (st : InitAccum) (path : NodePath) (h : siteProp site dk st) :
    siteProp site dk (pathStep cap ptel site dk st path) := by
  intro pid hmem
  rw [pathStep_sites] at hmem
  simp only [if_pos rfl] at hmem
  rw [pathStep_xrOld, pathStep_pathIds]
  rcases List.mem_append.mp hmem with hold | hnew
  · obtain ⟨h1, h2⟩ := h pid hold
    refine ⟨?_, by omega⟩
    simp [Nat.ne_of_lt h2, h1]
  · have : pid = st.pathIds := by simpa using hnew
    subst this
    exact ⟨by simp, by omega⟩

/-- `pathStep` on a different site preserves the invariant. -/
theorem pathStep_siteProp_ne (cap : Edge → ℚ)
    (ptel : NodePath → List Edge) (site site2 : Site) (dk dk2 : ℚ)
    (st : InitAccum) (path : NodePath) (hne : site2 ≠ site)
    (h : siteProp site dk st) :
    siteProp site dk (pathStep cap ptel site2 dk2 st path) := by
  intro pid hmem
  rw [pathStep_sites] at hmem
  simp only [if_neg (Ne.symm hne)] at hmem
  obtain ⟨h1, h2⟩ := h pid hmem
  rw [pathStep_xrOld, pathStep_pathIds]
  refine ⟨?_, by omega⟩
  simp [Nat.ne_of_lt h2, h1]

/-- The path loop on the site itself preserves the invariant. -/
theorem foldlPaths_siteProp_own (cap : Edge → ℚ)
    (ptel : NodePath → List Edge) (site : Site) (dk : ℚ) :
    ∀ (l : List NodePath) (st : InitAccum), siteProp site dk st →
      siteProp site dk (l.foldl (pathStep cap ptel site dk) st) := by
  intro l
  induction l with
  | nil => intro st h; exact h
  | cons path rest ih =>
    intro st h
    exact ih _ (pathStep_siteProp_own cap ptel site dk st path h)

/-- The path loop on a different site preserves the invariant. -/
theorem foldlPaths_siteProp_ne (cap : Edge → ℚ)
    (ptel : NodePath → List Edge) (site site2 : Site) (dk dk2 : ℚ)
    (hne : site2 ≠ site) :
    ∀ (l : List NodePath) (st : InitAccum), siteProp site dk st →
      siteProp site dk (l.foldl (pathStep cap ptel site2 dk2) st) := by
  intro l
  induction l with
  | nil => intro st h; exact h
  | cons path rest ih =>
    intro st h
    exact ih _ (pathStep_siteProp_ne cap ptel site site2 dk dk2 st path hne h)

/-- `commodityStep` advances the id counter monotonically. -/
theorem commodityStep_pathIds_mono (cap : Edge → ℚ)
    (ptel : NodePath → List Edge) (aps : Site → List NodePath)
    (st : InitAccum) (c : Commodity) :
    st.pathIds ≤ (commodityStep cap ptel aps st c).pathIds := by
  unfold commodityStep
  exact foldlPaths_pathIds_mono cap ptel c.site c.demand (aps c.site)
    { st with
      sitesToDemand := fun s2 =>
        if s2 = c.site then c.demand / NORMALIZATION
        else st.sitesToDemand s2 }

/-- `commodityStep` for a different site leaves that site's demand
unchanged. -/
theorem commodityStep_demand_ne (cap : Edge → ℚ)
    (ptel : NodePath → List Edge) (aps : Site → List NodePath)
    (st : InitAccum) (c : Commodity) (site : Site) (hne : c.site ≠ site) :
    (commodityStep cap ptel aps st c).sitesToDemand site =
      st.sitesToDemand site := by
  unfold commodityStep
  rw [foldlPaths_demand]
  simp [Ne.symm hne]

/-- `commodityStep` for a different site leaves that site's path id list
unchanged. -/
theorem commodityStep_sites_ne (cap : Edge → ℚ)
    (ptel : NodePath → List Edge) (aps : Site → List NodePath)
    (st : InitAccum) (c : Commodity) (site : Site) (hne : c.site ≠ site) :
    (commodityStep cap ptel aps st c).sitesToPathIds site =
      st.sitesToPathIds site := by
  unfold commodityStep
  rw [foldlPaths_sites_ne cap ptel c.site c.demand site (Ne.symm hne)]

/-- `commodityStep` for a different site preserves the invariant. -/
theorem commodityStep_siteProp_ne (cap : Edge → ℚ)
    (ptel : NodePath → List Edge) (aps : Site → List NodePath)
    (st : InitAccum) (c : Commodity) (site : Site) (dk : ℚ)
    (hne : c.site ≠ site) (h : siteProp site dk st) :
    siteProp site dk (commodityStep cap ptel aps st c) := by
  unfold commodityStep
  exact foldlPaths_siteProp_ne cap ptel site c.site dk c.demand hne
    (aps c.site) _ (fun pid hmem => h pid hmem)

/-- Processing a commodity whose site has no recorded path ids yet
establishes the invariant for that site, with the site's normalized
demand stored. -/
theorem commodityStep_own (cap : Edge → ℚ) (ptel : NodePath → List Edge)
    (aps : Site → List NodePath) (st : InitAccum) (c : Commodity)
    (hempty : st.sitesToPathIds c.site = []) :
    siteProp c.site c.demand (commodityStep cap ptel aps st c)
    ∧ (commodityStep cap ptel aps st c).sitesToDemand c.site =
        c.demand / NORMALIZATION := by
  constructor
  · unfold commodityStep
    apply foldlPaths_siteProp_own
    intro pid hmem
    rw [hempty] at hmem
    exact absurd hmem (by simp)
  · unfold commodityStep
    rw [foldlPaths_demand]
    simp

/-- Folding the commodity loop over commodities of other sites preserves
the invariant and the stored demand of `site`. -/
theorem foldlCommods_preserve (cap : Edge → ℚ)
    (ptel : NodePath → List Edge) (aps : Site → List NodePath)
    (site : Site) (dk : ℚ) :
    ∀ (l : List Commodity) (st : InitAccum),
      (∀ c2 ∈ l, c2.site ≠ site) → siteProp site dk st →
      siteProp site dk (l.foldl (commodityStep cap ptel aps) st)
      ∧ (l.foldl (commodityStep cap ptel aps) st).sitesToDemand site =
          st.sitesToDemand site := by
  intro l
  induction l with
  | nil => intro st _ h; exact ⟨h, rfl⟩
  | cons c0 rest ih =>
    intro st hne h
    rw [List.foldl_cons]
    have h0 := commodityStep_siteProp_ne cap ptel aps st c0 site dk
      (hne c0 (List.mem_cons_self _ _)) h
    obtain ⟨hh1, hh2⟩ := ih _ (fun c2 hc2 => hne c2 (List.mem_cons_of_mem _ hc2)) h0
    exact ⟨hh1, hh2.trans (commodityStep_demand_ne cap ptel aps st c0 site
      (hne c0 (List.mem_cons_self _ _)))⟩

/-- The key fact behind claim C10: for a commodity with a unique site in
the commodity list, and a starting accumulator in which that site has no
path ids yet, the full commodity loop stores the normalized demand for
the site and gives every one of the commodity's path ids the raw demand
as its initial flow. -/
theorem foldlCommods_key_spec (cap : Edge → ℚ)
    (ptel : NodePath → List Edge) (aps : Site → List NodePath) :
    ∀ (l : List Commodity) (st : InitAccum) (c : Commodity),
      c ∈ l → (l.map Commodity.site).Nodup →
      st.sitesToPathIds c.site = [] →
      (l.foldl (commodityStep cap ptel aps) st).sitesToDemand c.site =
          c.demand / NORMALIZATION
      ∧ siteProp c.site c.demand (l.foldl (commodityStep cap ptel aps) st) := by
  intro l
  induction l with
  | nil => intro st c hmem; exact absurd hmem (by simp)
  | cons c0 rest ih =>
    intro st c hmem hnd hempty
    rw [List.map_cons, List.nodup_cons] at hnd
    rw [List.foldl_cons]
    rcases List.mem_cons.mp hmem with heq | htl
    · subst heq
      have hne : ∀ c2 ∈ rest, c2.site ≠ c.site := by
        intro c2 hc2 habs
        exact hnd.1 (habs ▸ List.mem_map_of_mem Commodity.site hc2)
      obtain ⟨hown1, hown2⟩ := commodityStep_own cap ptel aps st c hempty
      obtain ⟨hp1, hp2⟩ := foldlCommods_preserve cap ptel aps c.site
        c.demand rest _ hne hown1
      exact ⟨hp2.trans hown2, hp1⟩
    · have hne0 : c0.site ≠ c.site := by
        intro habs
        exact hnd.1 (habs ▸ List.mem_map_of_mem Commodity.site htl)
      refine ih _ c htl hnd.2 ?_
      rw [commodityStep_sites_ne cap ptel aps st c0 c.site hne0]
      exact hempty

/-- Claim C10: `solve` divides every edge capacity and every site demand
by `NORMALIZATION = 1000` before iterating (first and second conjuncts),
but initializes each path's flow to the commodity's raw demand `d_k`
(third conjunct); hence, for a commodity with positive demand, every one
of its paths starts with an allocation equal to 1000 times the
normalized demand used in the multiplier updates (fourth conjunct). -/
theorem C10_raw_demand_vs_normalized (l : List (Edge × ℚ)) (e : Edge)
    (cval : ℚ) (cap : Edge → ℚ) (ptel : NodePath → List Edge)
    (aps : Site → List NodePath) (cl : List Commodity) (c : Commodity)
    (hmem : c ∈ cl) (hnd : (cl.map Commodity.site).Nodup)
    (hpos : 0 < c.demand) :
    edge_to_capacity (l ++ [(e, cval)]) e = cval / NORMALIZATION
    ∧ (solveInit cap ptel aps cl).sitesToDemand c.site =
        c.demand / NORMALIZATION
    ∧ (∀ pid ∈ (solveInit cap ptel aps cl).sitesToPathIds c.site,
        (solveInit cap ptel aps cl).xrOld pid = c.demand)
    ∧ ∀ pid ∈ (solveInit cap ptel aps cl).sitesToPathIds c.site,
        (solveInit cap ptel aps cl).xrOld pid =
          NORMALIZATION * (solveInit cap ptel aps cl).sitesToDemand c.site := by
  unfold solveInit
  obtain ⟨hd, hsp⟩ := foldlCommods_key_spec cap ptel aps cl initAccum0 c
    hmem hnd rfl
  refine ⟨?_, hd, fun pid hp => (hsp pid hp).1, fun pid hp => ?_⟩
  · unfold edge_to_capacity
    rw [List.foldl_append]
    simp
  · rw [(hsp pid hp).1, hd]
    rw [NORMALIZATION]
    field_simp

/-- Witness for `C10_raw_demand_vs_normalized` on a single commodity
`(0 → 2, demand 5)` with one candidate path `[0, 1, 2]`. -/
theorem C10_raw_demand_vs_normalized_witness :
    (⟨0, 0, 2, 5⟩ : Commodity) ∈ [(⟨0, 0, 2, 5⟩ : Commodity)]
    ∧ (([(⟨0, 0, 2, 5⟩ : Commodity)].map Commodity.site)).Nodup
    ∧ (0 : ℚ) < 5
    ∧ edge_to_capacity ([] ++ [((0, 1), 10)]) (0, 1) = 10 / NORMALIZATION
    ∧ (solveInit (fun _ => 1) (fun p => p.zip p.tail)
        (fun _ => [[0, 1, 2]]) [⟨0, 0, 2, 5⟩]).sitesToDemand (0, 2) =
      5 / NORMALIZATION := by
  have h := C10_raw_demand_vs_normalized [] (0, 1) 10 (fun _ => 1)
    (fun p => p.zip p.tail) (fun _ => [[0, 1, 2]]) [⟨0, 0, 2, 5⟩]
    ⟨0, 0, 2, 5⟩ (List.mem_singleton.mpr rfl) (by simp) (by norm_num)
  exact ⟨List.mem_singleton.mpr rfl, by simp, by norm_num, h.1, h.2.1⟩
